import Mathlib

/-!
Verification of the asynchronous HTTP request lifecycle manager of
Papyrus-HTTP-Utilities (src/src/plugin.cpp) against its specification.

The embedding is a shallow one: the global mutable state of the plugin
(the `requests` map, `lastHandle`, and the shared atomic `canceled`
flags) becomes an explicit `SysState` record that every operation
threads.  The network, the JSON parser and the Papyrus VM are external
collaborators: the network's answer is a parameter of the spawned
worker, a parse attempt is an `Option JSONVal` (none models a thrown
parse exception), and an invocation of `CallPapyrus` is recorded as a
`Notif` entry appended to the state.  Worker interleaving is modelled
by a program counter per worker: pc 0 is the first cancellation check
(plugin.cpp line 68), pc 1 the second check at the start of the queued
task (line 71), pc 2 the lock-protected delivery body (lines 73-91).
-/

set_option autoImplicit false

namespace PapyrusHTTP

/-- Model of a nlohmann JSON document (the external library the plugin
stores in `Request::json`).  Floating point numbers are represented by
rationals; no claim depends on rounding. -/
inductive JSONVal where
  | null
  | bool (b : Bool)
  | int (n : Int)
  | float (q : Rat)
  | str (s : String)
  | arr (elems : List JSONVal)
  | obj (fields : List (String × JSONVal))

/-- Record of one `CallPapyrus` invocation made by the delivery task:
either OnRequestSuccess(handle, body) or OnRequestFail(handle, status),
dispatched to the stored vm handle and script name. -/
inductive Notif where
  | success (vmhandle : Int) (scriptName : String) (handle : Int) (body : String)
  | fail (vmhandle : Int) (scriptName : String) (handle : Int) (status : Int)
deriving DecidableEq

/-- The per-request state stored in the `requests` map (struct Request,
plugin.cpp lines 8-14).  The shared `canceled` cell is modelled
separately in `SysState.canceledSet`, keyed by handle (handles are
never reused, so a handle identifies its cell). -/
structure Request where
  scriptName : String
  vmhandle : Int
  json : JSONVal := JSONVal.null
  jsonValidated : Bool := false

/-- Association-list lookup, modelling `std::map::find`. -/
def lookupA {κ α : Type} [DecidableEq κ] : List (κ × α) → κ → Option α
  | [], _ => none
  | (k, v) :: rest, key => if k = key then some v else lookupA rest key

/-- Association-list erase of a key, modelling `std::map::erase`.  A
`std::map` holds each key at most once, so removing every matching pair
from the list representation is the same operation. -/
def eraseA {κ α : Type} [DecidableEq κ] : List (κ × α) → κ → List (κ × α)
  | [], _ => []
  | (k, v) :: rest, key =>
      if k = key then eraseA rest key else (k, v) :: eraseA rest key

/-- In-place update of the value stored at a key, modelling mutation
through a `std::map` iterator. -/
def updateA {κ α : Type} [DecidableEq κ] : List (κ × α) → κ → α → List (κ × α)
  | [], _, _ => []
  | (k, v) :: rest, key, nv =>
      if k = key then (k, nv) :: rest else (k, v) :: updateA rest key nv

/-- `std::map::emplace`: inserts only when the key is absent. -/
def emplaceA {κ α : Type} [DecidableEq κ] (l : List (κ × α)) (key : κ) (v : α) :
    List (κ × α) :=
  match lookupA l key with
  | some _ => l
  | none => l ++ [(key, v)]

/-- Membership test in the set of handles whose shared canceled cell
holds true. -/
def inCancel : List Int → Int → Bool
  | [], _ => false
  | x :: rest, h => if x = h then true else inCancel rest h

/-- The plugin's global mutable state: the `requests` registry, the
`lastHandle` counter, the set of handles whose shared atomic `canceled`
flag is true, and the record of notifications dispatched so far. -/
structure SysState where
  requests : List (Int × Request)
  lastHandle : Int
  canceledSet : List Int
  notifs : List Notif

/-- Read of a request's shared atomic canceled flag. -/
def flagOf (st : SysState) (h : Int) : Bool :=
  inCancel st.canceledSet h

/-- The initial state: empty registry, `lastHandle = 0`. -/
def st0 : SysState :=
  { requests := [], lastHandle := 0, canceledSet := [], notifs := [] }

/-- CreateHandle (plugin.cpp lines 39-47): under the lock, increments
`lastHandle` and emplaces a fresh Request keyed by the new handle.  The
caller's script name and object handle are resolved from the VM stack
by an external facility and arrive here as arguments. -/
def CreateHandle (scriptName : String) (vmhandle : Int) (st : SysState) :
    Int × SysState :=
  let h := st.lastHandle + 1
  (h, { st with
          lastHandle := h
          requests := emplaceA st.requests h
            { scriptName := scriptName, vmhandle := vmhandle } })

/-- The outcome of the network call a worker performs, together with
the result of the JSON parse the delivery task would attempt on the
body (`none` models a thrown parse exception).  The network and the
parser are external collaborators, so these are inputs of the model. -/
structure Worker where
  handle : Int
  status : Int
  text : String
  parsed : Option JSONVal
  isJSON : Bool

/-- The lock-protected body of the delivery task (plugin.cpp lines
73-91): look the handle up; if present, on status 200 optionally parse
the body into the entry (a parse failure is swallowed and leaves
`jsonValidated` false) and dispatch OnRequestSuccess with the raw body
text, otherwise dispatch OnRequestFail with the status code.  The
entry is never erased here. -/
def deliverLocked (w : Worker) (st : SysState) : SysState :=
  match lookupA st.requests w.handle with
  | none => st
  | some req =>
      if w.status = 200 then
        let req2 :=
          if w.isJSON then
            match w.parsed with
            | some doc => { req with json := doc, jsonValidated := true }
            | none => req
          else req
        { st with
            requests := updateA st.requests w.handle req2
            notifs := st.notifs ++
              [Notif.success req.vmhandle req.scriptName w.handle w.text] }
      else
        { st with
            notifs := st.notifs ++
              [Notif.fail req.vmhandle req.scriptName w.handle w.status] }

/-- One atomic step of a worker, by program counter: pc 0 is the
post-network cancellation check (line 68), pc 1 the second check at
the start of the queued task (line 71), pc 2 the lock-protected
delivery body; pc 3 means the worker is done (either delivered or
aborted by a check). -/
def wstep (w : Worker) : Nat × SysState → Nat × SysState
  | (0, st) => if flagOf st w.handle then (3, st) else (1, st)
  | (1, st) => if flagOf st w.handle then (3, st) else (2, st)
  | (2, st) => (3, deliverLocked w st)
  | (pc, st) => (pc, st)

/-- Destroy (plugin.cpp lines 112-124): under the lock, look the handle
up; absent handle is a silent no-op; if the caller's script name equals
the stored one, store true into the shared canceled cell and erase the
entry; otherwise a silent no-op. -/
def Destroy (callerScript : String) (a_handle : Int) (st : SysState) : SysState :=
  match lookupA st.requests a_handle with
  | none => st
  | some req =>
      if callerScript = req.scriptName then
        { st with
            canceledSet := a_handle :: st.canceledSet
            requests := eraseA st.requests a_handle }
      else st

/-- OnMessage (plugin.cpp lines 167-175): on the post-load-game message
it stores true into every live request's canceled cell and clears the
registry; any other message is ignored. -/
def OnMessage (isPostLoadGame : Bool) (st : SysState) : SysState :=
  if isPostLoadGame then
    { st with
        canceledSet := st.requests.map Prod.fst ++ st.canceledSet
        requests := [] }
  else st

/-- The reset event of the spec: OnMessage for the post-load message. -/
def ResetAll (st : SysState) : SysState :=
  OnMessage true st

/-- ValidateJSON (plugin.cpp lines 126-131): false for an absent
handle, otherwise the entry's `jsonValidated` flag. -/
def ValidateJSON (st : SysState) (a_handle : Int) : Bool :=
  match lookupA st.requests a_handle with
  | none => false
  | some req => req.jsonValidated

/-- Unescaping of one JSON-pointer reference token as nlohmann does:
a tilde followed by 0 yields a tilde, by 1 a slash, and by anything
else is a pointer parse error (which GetJSONValue catches). -/
def unescapeSeg : List Char → Option (List Char)
  | [] => some []
  | c :: rest =>
      if c = '~' then
        match rest with
        | '0' :: rest2 => (unescapeSeg rest2).map (fun t => '~' :: t)
        | '1' :: rest2 => (unescapeSeg rest2).map (fun t => '/' :: t)
        | _ => none
      else (unescapeSeg rest).map (fun t => c :: t)

/-- Splitting the part of a pointer after its leading slash at every
slash; the empty remainder is the single empty reference token. -/
def splitSegs : List Char → List (List Char)
  | [] => [[]]
  | c :: rest =>
      if c = '/' then [] :: splitSegs rest
      else
        match splitSegs rest with
        | s :: ss => (c :: s) :: ss
        | [] => [[c]]

/-- An array-index reference token: digits only, with no superfluous
leading zero, as nlohmann requires. -/
def segIndex (t : List Char) : Option Nat :=
  if t.all Char.isDigit ∧ t ≠ [] ∧ (t = ['0'] ∨ t.head? ≠ some '0') then
    some ((String.mk t).toNat!)
  else none

/-- Resolution of a list of unescaped reference tokens against a
document: each token selects an object field by name or an array
element by index. -/
def resolveTokens : JSONVal → List (List Char) → Option JSONVal
  | v, [] => some v
  | JSONVal.obj fields, t :: rest =>
      match lookupA fields (String.mk t) with
      | some v => resolveTokens v rest
      | none => none
  | JSONVal.arr elems, t :: rest =>
      match segIndex t with
      | some i =>
          match elems.get? i with
          | some v => resolveTokens v rest
          | none => none
      | none => none
  | _, _ :: _ => none

/-- Unescaping of every reference token of a pointer; a bad escape in
any token makes the whole pointer a parse error. -/
def unescapeSegs : List (List Char) → Option (List (List Char))
  | [] => some []
  | s :: ss =>
      match unescapeSeg s, unescapeSegs ss with
      | some t, some ts => some (t :: ts)
      | _, _ => none

/-- Full JSON-pointer resolution as `json.contains(ptr)` followed by
`json[ptr]` behaves: the empty pointer resolves to the document itself,
a pointer must otherwise start with a slash (else the json_pointer
constructor throws, which GetJSONValue catches), and its tokens are
unescaped and resolved in order. -/
def resolvePointer (v : JSONVal) (path : String) : Option JSONVal :=
  match path.data with
  | [] => some v
  | c :: rest =>
      if c = '/' then
        match unescapeSegs (splitSegs rest) with
        | some toks => resolveTokens v toks
        | none => none
      else none

/-- GetJSONValue (plugin.cpp lines 133-149): default for an absent
handle; otherwise build the pointer and look it up in the stored
document, converting the resolved value to the target type; any thrown
exception (bad pointer, unresolved path, inconvertible value — all
modelled by `none`) is caught and yields the default. -/
def GetJSONValue {T : Type} (conv : JSONVal → Option T) (st : SysState)
    (a_handle : Int) (a_path : String) (a_default : T) : T :=
  match lookupA st.requests a_handle with
  | none => a_default
  | some req =>
      match resolvePointer req.json a_path with
      | none => a_default
      | some v => (conv v).getD a_default

/-- nlohmann get of a std::string: succeeds only on a string value. -/
def asString : JSONVal → Option String
  | JSONVal.str s => some s
  | _ => none

/-- nlohmann get of an int: succeeds on booleans and numbers (a float
is truncated toward zero, as a C++ cast does). -/
def asInt : JSONVal → Option Int
  | JSONVal.int n => some n
  | JSONVal.bool b => some (if b then 1 else 0)
  | JSONVal.float q => some (if 0 ≤ q then q.floor else q.ceil)
  | _ => none

/-- nlohmann get of a float: succeeds on booleans and numbers. -/
def asFloat : JSONVal → Option Rat
  | JSONVal.int n => some (n : Rat)
  | JSONVal.float q => some q
  | JSONVal.bool b => some (if b then 1 else 0)
  | _ => none

/-- nlohmann get of a bool: succeeds only on a boolean value. -/
def asBool : JSONVal → Option Bool
  | JSONVal.bool b => some b
  | _ => none

/-- GetJSONString (plugin.cpp lines 151-153). -/
def GetJSONString (st : SysState) (a_handle : Int) (a_path : String)
    (a_default : String) : String :=
  GetJSONValue asString st a_handle a_path a_default

/-- GetJSONInt (plugin.cpp lines 155-157). -/
def GetJSONInt (st : SysState) (a_handle : Int) (a_path : String)
    (a_default : Int) : Int :=
  GetJSONValue asInt st a_handle a_path a_default

/-- GetJSONFloat (plugin.cpp lines 159-161). -/
def GetJSONFloat (st : SysState) (a_handle : Int) (a_path : String)
    (a_default : Rat) : Rat :=
  GetJSONValue asFloat st a_handle a_path a_default

/-- GetJSONBool (plugin.cpp lines 163-165). -/
def GetJSONBool (st : SysState) (a_handle : Int) (a_path : String)
    (a_default : Bool) : Bool :=
  GetJSONValue asBool st a_handle a_path a_default

/-- The query-parameter list the worker attaches to the GET (plugin.cpp
lines 61-66): the key/value pairs are attached only when the key list
is non-empty and both lists have equal length; otherwise the request
carries zero parameters. -/
def buildParams (a_paramKeys a_paramValues : List String) :
    List (String × String) :=
  if a_paramKeys ≠ [] ∧ a_paramKeys.length = a_paramValues.length then
    a_paramKeys.zip a_paramValues
  else []

/-- The outbound GET the worker issues (plugin.cpp line 67): URL,
timeout and attached query parameters. -/
structure IssuedRequest where
  url : String
  timeout : Int
  params : List (String × String)
deriving DecidableEq

/-- The result of CreateRequest: the handle returned to the caller, the
mutated registry state, the spawned worker's delivery data, and the GET
it issues. -/
structure CreateResult where
  handle : Int
  state : SysState
  worker : Worker
  issued : IssuedRequest

/-- CreateRequest (plugin.cpp lines 49-96): allocates a handle and
registry entry via CreateHandle, then spawns a detached worker that
issues the GET built from the URL, timeout and parameter lists.  The
network and parser are external, so their answer for the issued GET is
the argument `net` (status, body text, and parse result of the body). -/
def CreateRequest (scriptName : String) (vmhandle : Int) (a_url : String)
    (a_timeout : Int) (a_paramKeys a_paramValues : List String) (isJSON : Bool)
    (net : IssuedRequest → Int × String × Option JSONVal) (st : SysState) :
    CreateResult :=
  let hs := CreateHandle scriptName vmhandle st
  let issued : IssuedRequest :=
    { url := a_url, timeout := a_timeout
      params := buildParams a_paramKeys a_paramValues }
  let r := net issued
  { handle := hs.1
    state := hs.2
    worker :=
      { handle := hs.1, status := r.1, text := r.2.1, parsed := r.2.2
        isJSON := isJSON }
    issued := issued }

/-- LoadURL (plugin.cpp lines 98-103): CreateRequest with JSON mode
off. -/
def LoadURL (scriptName : String) (vmhandle : Int) (a_url : String)
    (a_timeout : Int) (a_paramKeys a_paramValues : List String)
    (net : IssuedRequest → Int × String × Option JSONVal) (st : SysState) :
    CreateResult :=
  CreateRequest scriptName vmhandle a_url a_timeout a_paramKeys a_paramValues
    false net st

/-- LoadJSON (plugin.cpp lines 105-110): CreateRequest with JSON mode
on. -/
def LoadJSON (scriptName : String) (vmhandle : Int) (a_url : String)
    (a_timeout : Int) (a_paramKeys a_paramValues : List String)
    (net : IssuedRequest → Int × String × Option JSONVal) (st : SysState) :
    CreateResult :=
  CreateRequest scriptName vmhandle a_url a_timeout a_paramKeys a_paramValues
    true net st

/-- An event in the race between one worker and one Destroy call:
either the worker takes its next step, or the owner's Destroy runs. -/
inductive Ev where
  | wk
  | cancel
deriving DecidableEq

/-- One event of the worker/Destroy race: `wk` advances the worker by
one atomic step, `cancel` runs Destroy for the worker's handle on
behalf of the given script. -/
def C1step (w : Worker) (callerScript : String) (p : Nat × SysState) :
    Ev → Nat × SysState
  | Ev.wk => wstep w p
  | Ev.cancel => (p.1, Destroy callerScript w.handle p.2)

/-- Run of an interleaving of worker steps and the Destroy call,
starting with the worker at its first cancellation check. -/
def C1run (w : Worker) (callerScript : String) (evs : List Ev)
    (st : SysState) : SysState :=
  (evs.foldl (C1step w callerScript) (0, st)).2

/-- One scheduled step in a pool of workers: the schedule entry picks a
worker index, and that worker advances by one atomic step (indices
without a worker are skipped). -/
def schedStep (ws : List Worker) (p : List Nat × SysState) (i : Nat) :
    List Nat × SysState :=
  match ws.get? i, p.1.get? i with
  | some w, some pc =>
      let r := wstep w (pc, p.2)
      (p.1.set i r.1, r.2)
  | _, _ => p

/-- Run of an arbitrary interleaving (a schedule of worker indices) of
a pool of workers with given program counters. -/
def runSched (ws : List Worker) (pcs : List Nat) (sched : List Nat)
    (st : SysState) : SysState :=
  (sched.foldl (schedStep ws) (pcs, st)).2

/-- A registry operation, for quantifying over arbitrary sequences of
allocations, cancels, resets and deliveries. -/
inductive Op where
  | create (scriptName : String) (vmhandle : Int)
  | destroy (scriptName : String) (handle : Int)
  | reset
  | deliver (w : Worker)

/-- Application of one registry operation; a create also yields the
handle returned to the caller. -/
def applyOp (st : SysState) : Op → SysState × Option Int
  | Op.create s v => let r := CreateHandle s v st; (r.2, some r.1)
  | Op.destroy s h => (Destroy s h st, none)
  | Op.reset => (ResetAll st, none)
  | Op.deliver w => (deliverLocked w st, none)

/-- Run of a sequence of registry operations, collecting the handles
returned by the creates in order. -/
def runOps : List Op → SysState → SysState × List Int
  | [], st => (st, [])
  | op :: rest, st =>
      let r := applyOp st op
      let r2 := runOps rest r.1
      (r2.1, r.2.toList ++ r2.2)

/-- The decoded document of the round-trip example: the body
consisting of an object a whose field b holds 42, as the external
parser decodes it. -/
def docC6 : JSONVal :=
  JSONVal.obj [("a", JSONVal.obj [("b", JSONVal.int 42)])]

/-- A registry holding one freshly created request with handle 1. -/
def stOne : SysState :=
  { requests := [(1, { scriptName := "S", vmhandle := 7 })]
    lastHandle := 1, canceledSet := [], notifs := [] }

/-- The worker of the round-trip example: a 200 response in JSON mode
whose body decoded to `docC6`. -/
def wC6 : Worker :=
  { handle := 1, status := 200, text := "\x7b\"a\":\x7b\"b\":42\x7d\x7d"
    parsed := some docC6, isJSON := true }

/-- The state of the round-trip example after its delivery ran. -/
def stC6 : SysState :=
  deliverLocked wC6 stOne

/-- A worker holding a delivered 200 response in plain (non-JSON)
mode. -/
def wC5 : Worker :=
  { handle := 1, status := 200, text := "ok", parsed := none, isJSON := false }

/-! Helper lemmas about the association-list primitives. -/

theorem lookupA_eraseA_self {κ α : Type} [DecidableEq κ] (l : List (κ × α)) (k : κ) :
    lookupA (eraseA l k) k = none := by
  induction l with
  | nil => rfl
  | cons p rest ih =>
      obtain ⟨k1, v1⟩ := p
      rw [eraseA]
      by_cases hk : k1 = k
      · rw [if_pos hk]
        exact ih
      · rw [if_neg hk, lookupA, if_neg hk]
        exact ih

theorem lookupA_eraseA_ne {κ α : Type} [DecidableEq κ] (l : List (κ × α))
    (k h : κ) (hne : h ≠ k) :
    lookupA (eraseA l k) h = lookupA l h := by
  induction l with
  | nil => rfl
  | cons p rest ih =>
      obtain ⟨k1, v1⟩ := p
      rw [eraseA]
      by_cases hk : k1 = k
      · rw [if_pos hk, lookupA, if_neg (fun e => hne (hk ▸ e.symm)), ih]
      · rw [if_neg hk, lookupA, lookupA]
        by_cases hh : k1 = h
        · rw [if_pos hh, if_pos hh]
        · rw [if_neg hh, if_neg hh, ih]

theorem lookupA_append_single {κ α : Type} [DecidableEq κ] (l : List (κ × α))
    (k h : κ) (v : α) :
    lookupA (l ++ [(k, v)]) h =
      match lookupA l h with
      | some r => some r
      | none => if k = h then some v else none := by
  induction l with
  | nil => simp [lookupA]
  | cons p rest ih =>
      obtain ⟨k1, v1⟩ := p
      by_cases hh : k1 = h
      · simp [lookupA, hh]
      · simp [lookupA, hh, ih]

theorem lookupA_updateA_ne {κ α : Type} [DecidableEq κ] (l : List (κ × α))
    (k h : κ) (v : α) (hne : k ≠ h) :
    lookupA (updateA l k v) h = lookupA l h := by
  induction l with
  | nil => rfl
  | cons p rest ih =>
      obtain ⟨k1, v1⟩ := p
      rw [updateA]
      by_cases hk : k1 = k
      · have hk1h : ¬k1 = h := fun e => hne (hk.symm.trans e)
        rw [if_pos hk, lookupA, lookupA, if_neg hk1h, if_neg hk1h]
      · rw [if_neg hk, lookupA, lookupA]
        by_cases hh : k1 = h
        · rw [if_pos hh, if_pos hh]
        · rw [if_neg hh, if_neg hh, ih]

theorem lookupA_updateA_self {κ α : Type} [DecidableEq κ] (l : List (κ × α))
    (k : κ) (v r : α) (hr : lookupA l k = some r) :
    lookupA (updateA l k v) k = some v := by
  induction l with
  | nil => simp [lookupA] at hr
  | cons p rest ih =>
      obtain ⟨k1, v1⟩ := p
      rw [updateA]
      by_cases hk : k1 = k
      · rw [if_pos hk, lookupA, if_pos hk]
      · rw [lookupA, if_neg hk] at hr
        rw [if_neg hk, lookupA, if_neg hk]
        exact ih hr

theorem lookupA_updateA_none {κ α : Type} [DecidableEq κ] (l : List (κ × α))
    (k h : κ) (v : α) (hnone : lookupA l h = none) :
    lookupA (updateA l k v) h = none := by
  induction l with
  | nil => rfl
  | cons p rest ih =>
      obtain ⟨k1, v1⟩ := p
      rw [lookupA] at hnone
      by_cases hh : k1 = h
      · rw [if_pos hh] at hnone
        cases hnone
      · rw [if_neg hh] at hnone
        rw [updateA]
        by_cases hk : k1 = k
        · rw [if_pos hk, lookupA, if_neg hh]
          exact hnone
        · rw [if_neg hk, lookupA, if_neg hh]
          exact ih hnone

theorem isSome_lookupA_updateA {κ α : Type} [DecidableEq κ] (l : List (κ × α))
    (k h : κ) (v : α) :
    (lookupA (updateA l k v) h).isSome = (lookupA l h).isSome := by
  induction l with
  | nil => rfl
  | cons p rest ih =>
      obtain ⟨k1, v1⟩ := p
      rw [updateA]
      by_cases hk : k1 = k
      · rw [if_pos hk, lookupA, lookupA]
        by_cases hh : k1 = h
        · rw [if_pos hh, if_pos hh]
          rfl
        · rw [if_neg hh, if_neg hh]
      · rw [if_neg hk, lookupA, lookupA]
        by_cases hh : k1 = h
        · rw [if_pos hh, if_pos hh]
        · rw [if_neg hh, if_neg hh]
          exact ih

theorem map_fst_updateA {κ α : Type} [DecidableEq κ] (l : List (κ × α))
    (k : κ) (v : α) :
    (updateA l k v).map Prod.fst = l.map Prod.fst := by
  induction l with
  | nil => rfl
  | cons p rest ih =>
      obtain ⟨k1, v1⟩ := p
      rw [updateA]
      by_cases hk : k1 = k
      · rw [if_pos hk, List.map_cons, List.map_cons]
      · rw [if_neg hk, List.map_cons, List.map_cons, ih]

theorem mem_emplaceA {κ α : Type} [DecidableEq κ] (l : List (κ × α))
    (k : κ) (v : α) (p : κ × α) (hp : p ∈ emplaceA l k v) :
    p ∈ l ∨ p = (k, v) := by
  unfold emplaceA at hp
  cases hlk : lookupA l k with
  | some r => rw [hlk] at hp; exact Or.inl hp
  | none =>
      rw [hlk] at hp
      rcases List.mem_append.mp hp with h1 | h2
      · exact Or.inl h1
      · exact Or.inr (List.mem_singleton.mp h2)

theorem inCancel_cons_self (s : List Int) (h : Int) :
    inCancel (h :: s) h = true := by
  simp [inCancel]

/-- A network environment whose answer is a transport failure; used
only to instantiate witnesses. -/
def netNone : IssuedRequest → Int × String × Option JSONVal :=
  fun _ => (0, "", none)

/-- Claim C4: Destroy is a silent no-op when the handle is absent or
when the requesting owner identity differs from the stored one; only
on an identity match does it set the shared cancel flag and erase the
entry. -/
theorem spec_destroy_authorized_only (st : SysState) (callerScript : String)
    (h : Int) :
    (lookupA st.requests h = none → Destroy callerScript h st = st) ∧
    (∀ req : Request, lookupA st.requests h = some req →
      callerScript ≠ req.scriptName → Destroy callerScript h st = st) ∧
    (∀ req : Request, lookupA st.requests h = some req →
      callerScript = req.scriptName →
      Destroy callerScript h st =
        { st with canceledSet := h :: st.canceledSet
                  requests := eraseA st.requests h }) := by
  refine ⟨fun hnone => ?_, fun req hsome hne => ?_, fun req hsome heq => ?_⟩
  · simp only [Destroy, hnone]
  · simp only [Destroy, hsome]
    rw [if_neg hne]
  · simp only [Destroy, hsome]
    rw [if_pos heq]

/-- Witness for C4 at concrete inputs: a mismatched owner leaves the
one-entry registry untouched, the matching owner flags and erases, and
an absent handle is a no-op. -/
theorem spec_destroy_authorized_only_witness :
    lookupA stOne.requests 1 =
      some { scriptName := "S", vmhandle := 7 } ∧
    Destroy "T" 1 stOne = stOne ∧
    Destroy "S" 1 stOne =
      { stOne with canceledSet := 1 :: stOne.canceledSet
                   requests := eraseA stOne.requests 1 } ∧
    lookupA st0.requests 1 = none ∧
    Destroy "S" 1 st0 = st0 :=
  ⟨rfl,
   (spec_destroy_authorized_only stOne "T" 1).2.1
     { scriptName := "S", vmhandle := 7 } rfl (by decide),
   (spec_destroy_authorized_only stOne "S" 1).2.2
     { scriptName := "S", vmhandle := 7 } rfl rfl,
   rfl,
   (spec_destroy_authorized_only st0 "S" 1).1 rfl⟩

/-- Claim C5 counterexample: a delivery that runs to completion (the
success notification fires) does not remove the registry entry; the
handle still matches a Lookup afterwards, so removal on delivery
completion, as the claim states it, is false. -/
theorem spec_delivery_removes_entry_cex :
    (deliverLocked wC5 stOne).notifs = [Notif.success 7 "S" 1 "ok"] ∧
    (lookupA (deliverLocked wC5 stOne).requests 1).isSome = true := by
  constructor <;> rfl

/-- Claim C5 (amended): the delivery action never removes a registry
entry — it preserves the key set of the registry (and the handle
counter and cancel flags) whether it delivered success, failure, or
nothing; entries are removed only by Destroy or by the reset event. -/
theorem spec_delivery_keeps_entry (w : Worker) (st : SysState) :
    (deliverLocked w st).requests.map Prod.fst = st.requests.map Prod.fst ∧
    (∀ h : Int, (lookupA (deliverLocked w st).requests h).isSome =
      (lookupA st.requests h).isSome) ∧
    (deliverLocked w st).lastHandle = st.lastHandle ∧
    (deliverLocked w st).canceledSet = st.canceledSet := by
  unfold deliverLocked
  split
  · exact ⟨rfl, fun h => rfl, rfl, rfl⟩
  · split
    · exact ⟨map_fst_updateA _ _ _,
        fun h => isSome_lookupA_updateA _ _ _ _, rfl, rfl⟩
    · exact ⟨rfl, fun h => rfl, rfl, rfl⟩

/-- Claim C7: a delivery of a 200 response in JSON mode whose body
fails to parse is swallowed — jsonValidated stays false, ValidateJSON
stays false, and the success notification still fires with the handle
and the raw body text. -/
theorem spec_malformed_json_swallowed (st : SysState) (w : Worker) (req : Request)
    (hsome : lookupA st.requests w.handle = some req)
    (hstatus : w.status = 200) (hjson : w.isJSON = true)
    (hparse : w.parsed = none) (hval : req.jsonValidated = false) :
    ValidateJSON (deliverLocked w st) w.handle = false ∧
    (deliverLocked w st).notifs =
      st.notifs ++ [Notif.success req.vmhandle req.scriptName w.handle w.text] := by
  have hdel : deliverLocked w st =
      { st with
          requests := updateA st.requests w.handle req
          notifs := st.notifs ++
            [Notif.success req.vmhandle req.scriptName w.handle w.text] } := by
    simp only [deliverLocked, hsome]
    rw [if_pos hstatus, hjson, hparse]
    rfl
  rw [hdel]
  refine ⟨?_, rfl⟩
  simp only [ValidateJSON, lookupA_updateA_self st.requests w.handle req req hsome]
  exact hval

/-- Witness for C7: the request of `stOne` delivered with status 200 in
JSON mode and an unparseable body keeps ValidateJSON false while the
success notification fires with the raw body. -/
theorem spec_malformed_json_swallowed_witness :
    lookupA stOne.requests 1 = some { scriptName := "S", vmhandle := 7 } ∧
    ValidateJSON
      (deliverLocked
        { handle := 1, status := 200, text := "oops", parsed := none
          isJSON := true } stOne) 1 = false ∧
    (deliverLocked
        { handle := 1, status := 200, text := "oops", parsed := none
          isJSON := true } stOne).notifs =
      stOne.notifs ++ [Notif.success 7 "S" 1 "oops"] :=
  ⟨rfl,
   (spec_malformed_json_swallowed stOne
     { handle := 1, status := 200, text := "oops", parsed := none
       isJSON := true }
     { scriptName := "S", vmhandle := 7 } rfl rfl rfl rfl rfl).1,
   (spec_malformed_json_swallowed stOne
     { handle := 1, status := 200, text := "oops", parsed := none
       isJSON := true }
     { scriptName := "S", vmhandle := 7 } rfl rfl rfl rfl rfl).2⟩

/-- Claim C8: a delivery for a live handle with a non-200 status
(transport failures included) fires only the failure notification,
with the literal status code; the entry is untouched, so ValidateJSON
stays false for a request that was never validated. -/
theorem spec_failure_notification (st : SysState) (w : Worker) (req : Request)
    (hsome : lookupA st.requests w.handle = some req)
    (hstatus : w.status ≠ 200) :
    (deliverLocked w st).notifs =
      st.notifs ++ [Notif.fail req.vmhandle req.scriptName w.handle w.status] ∧
    lookupA (deliverLocked w st).requests w.handle = some req ∧
    (req.jsonValidated = false →
      ValidateJSON (deliverLocked w st) w.handle = false) := by
  have hdel : deliverLocked w st =
      { st with notifs := st.notifs ++
          [Notif.fail req.vmhandle req.scriptName w.handle w.status] } := by
    simp only [deliverLocked, hsome]
    rw [if_neg hstatus]
  rw [hdel]
  refine ⟨rfl, hsome, fun hval => ?_⟩
  simp only [ValidateJSON, hsome]
  exact hval

/-- Witness for C8: a 404 delivery to the request of `stOne` fires
OnRequestFail with 404, leaves the entry live, and ValidateJSON is
false. -/
theorem spec_failure_notification_witness :
    lookupA stOne.requests 1 = some { scriptName := "S", vmhandle := 7 } ∧
    (404 : Int) ≠ 200 ∧
    (deliverLocked
        { handle := 1, status := 404, text := "", parsed := none
          isJSON := true } stOne).notifs =
      stOne.notifs ++ [Notif.fail 7 "S" 1 404] ∧
    ValidateJSON
      (deliverLocked
        { handle := 1, status := 404, text := "", parsed := none
          isJSON := true } stOne) 1 = false :=
  ⟨rfl, by decide,
   (spec_failure_notification stOne
     { handle := 1, status := 404, text := "", parsed := none, isJSON := true }
     { scriptName := "S", vmhandle := 7 } rfl (by decide)).1,
   (spec_failure_notification stOne
     { handle := 1, status := 404, text := "", parsed := none, isJSON := true }
     { scriptName := "S", vmhandle := 7 } rfl (by decide)).2.2 rfl⟩

/-- Claim C9: parameter key/value lists of unequal length (and an
empty key list) yield a request issued with zero query parameters, at
the same URL and timeout and with a handle still allocated; parameters
are attached exactly when the key list is non-empty and both lists
have equal length. -/
theorem spec_mismatched_params (s : String) (v : Int) (url : String) (t : Int)
    (ks vs : List String) (isJSON : Bool)
    (net : IssuedRequest → Int × String × Option JSONVal) (st : SysState) :
    (ks.length ≠ vs.length →
      (CreateRequest s v url t ks vs isJSON net st).issued =
        { url := url, timeout := t, params := [] }) ∧
    (ks = [] → (CreateRequest s v url t ks vs isJSON net st).issued.params = []) ∧
    (ks ≠ [] → ks.length = vs.length →
      (CreateRequest s v url t ks vs isJSON net st).issued.params = ks.zip vs) ∧
    (CreateRequest s v url t ks vs isJSON net st).handle = st.lastHandle + 1 := by
  refine ⟨fun hne => ?_, fun hnil => ?_, fun hnn hlen => ?_, rfl⟩
  · simp [CreateRequest, buildParams, hne]
  · simp [CreateRequest, buildParams, hnil]
  · simp [CreateRequest, buildParams, hnn, hlen]

/-- Witness for C9: two keys against zero values issue the GET with no
parameters; one key against one value attaches the pair. -/
theorem spec_mismatched_params_witness :
    (["a", "b"] : List String).length ≠ ([] : List String).length ∧
    (CreateRequest "S" 7 "u" 5000 ["a", "b"] [] false netNone st0).issued =
      { url := "u", timeout := 5000, params := [] } ∧
    (["a"] : List String) ≠ [] ∧
    (CreateRequest "S" 7 "u" 5000 ["a"] ["b"] false netNone st0).issued.params =
      [("a", "b")] :=
  ⟨by decide,
   (spec_mismatched_params "S" 7 "u" 5000 ["a", "b"] [] false netNone st0).1
     (by decide),
   by decide,
   (spec_mismatched_params "S" 7 "u" 5000 ["a"] ["b"] false netNone st0).2.2.1
     (by decide) rfl⟩

/-- Claim C6: the typed accessor returns the caller default when the
handle is absent, the pointer path fails to resolve in the stored
document, or the resolved value does not convert; otherwise the
converted value.  Concretely, after delivery of the 200 JSON response
whose body decodes to an object a containing b = 42, the int accessor
at /a/b with default -1 returns 42 while the string accessor at the
same path returns its default. -/
theorem spec_getfield_defaults :
    (∀ (T : Type) (conv : JSONVal → Option T) (st : SysState) (h : Int)
        (path : String) (d : T), lookupA st.requests h = none →
        GetJSONValue conv st h path d = d) ∧
    (∀ (T : Type) (conv : JSONVal → Option T) (st : SysState) (h : Int)
        (path : String) (d : T) (req : Request),
        lookupA st.requests h = some req →
        resolvePointer req.json path = none →
        GetJSONValue conv st h path d = d) ∧
    (∀ (T : Type) (conv : JSONVal → Option T) (st : SysState) (h : Int)
        (path : String) (d : T) (req : Request) (v : JSONVal),
        lookupA st.requests h = some req →
        resolvePointer req.json path = some v → conv v = none →
        GetJSONValue conv st h path d = d) ∧
    (∀ (T : Type) (conv : JSONVal → Option T) (st : SysState) (h : Int)
        (path : String) (d : T) (req : Request) (v : JSONVal) (t : T),
        lookupA st.requests h = some req →
        resolvePointer req.json path = some v → conv v = some t →
        GetJSONValue conv st h path d = t) ∧
    (GetJSONInt stC6 1 "/a/b" (-1) = 42 ∧
     GetJSONString stC6 1 "/a/b" "x" = "x" ∧
     ValidateJSON stC6 1 = true) := by
  refine ⟨fun T conv st h path d h1 => ?_,
    fun T conv st h path d req h1 h2 => ?_,
    fun T conv st h path d req v h1 h2 h3 => ?_,
    fun T conv st h path d req v t h1 h2 h3 => ?_,
    rfl, rfl, rfl⟩
  · simp only [GetJSONValue, h1]
  · simp only [GetJSONValue, h1, h2]
  · simp only [GetJSONValue, h1, h2, h3]
    rfl
  · simp only [GetJSONValue, h1, h2, h3]
    rfl

/-- Witness for C6: each default case and the round-trip case
instantiated — absent handle, unresolved path, type mismatch at /a/b,
and successful int conversion at /a/b. -/
theorem spec_getfield_defaults_witness :
    lookupA st0.requests 1 = none ∧
    GetJSONInt st0 1 "/a/b" 5 = 5 ∧
    lookupA stC6.requests 1 =
      some { scriptName := "S", vmhandle := 7, json := docC6
             jsonValidated := true } ∧
    resolvePointer docC6 "/zz" = none ∧
    GetJSONInt stC6 1 "/zz" 5 = 5 ∧
    resolvePointer docC6 "/a/b" = some (JSONVal.int 42) ∧
    asString (JSONVal.int 42) = none ∧
    GetJSONString stC6 1 "/a/b" "x" = "x" ∧
    asInt (JSONVal.int 42) = some 42 ∧
    GetJSONInt stC6 1 "/a/b" (-1) = 42 :=
  ⟨rfl,
   spec_getfield_defaults.1 Int asInt st0 1 "/a/b" 5 rfl,
   rfl, rfl,
   spec_getfield_defaults.2.1 Int asInt stC6 1 "/zz" 5
     { scriptName := "S", vmhandle := 7, json := docC6, jsonValidated := true }
     rfl rfl,
   rfl, rfl,
   spec_getfield_defaults.2.2.1 String asString stC6 1 "/a/b" "x"
     { scriptName := "S", vmhandle := 7, json := docC6, jsonValidated := true }
     (JSONVal.int 42) rfl rfl rfl,
   rfl,
   spec_getfield_defaults.2.2.2.1 Int asInt stC6 1 "/a/b" (-1)
     { scriptName := "S", vmhandle := 7, json := docC6, jsonValidated := true }
     (JSONVal.int 42) 42 rfl rfl rfl⟩

/-! Interleaving lemmas for the cancellation race (C1) and the reset
race (C2). -/

theorem c1_pre (w : Worker) (callerScript : String) (st : SysState) (i : Nat)
    (hi : i ≤ 2) :
    (List.foldl (C1step w callerScript) (0, st) (List.replicate i Ev.wk)).2 =
      st := by
  interval_cases i
  · rfl
  · cases hf : flagOf st w.handle <;> simp [C1step, wstep, hf]
  · cases hf : flagOf st w.handle <;> simp [C1step, wstep, hf]

theorem c1_stuck (w : Worker) (callerScript : String) (j : Nat) :
    ∀ (pc : Nat) (st : SysState), flagOf st w.handle = true →
      lookupA st.requests w.handle = none →
      (List.foldl (C1step w callerScript) (pc, st)
        (List.replicate j Ev.wk)).2 = st := by
  induction j with
  | zero => intro pc st _ _; rfl
  | succ n ih =>
      intro pc st hf hl
      rw [List.replicate_succ, List.foldl_cons]
      have hstep : (C1step w callerScript (pc, st) Ev.wk).2 = st := by
        rcases pc with _ | _ | _ | pc
        · simp [C1step, wstep, hf]
        · simp [C1step, wstep, hf]
        · simp [C1step, wstep, deliverLocked, hl]
        · simp [C1step, wstep]
      rcases hC : C1step w callerScript (pc, st) Ev.wk with ⟨pc2, st2⟩
      rw [hC] at hstep
      have hst2 : st2 = st := hstep
      subst hst2
      exact ih pc2 _ hf hl

/-- Claim C1: if Destroy runs (by the owning script) before the
worker's first check, between the two checks, or between the second
check and the locked delivery — i.e. anywhere before the delivery
lookup — then no notification is ever recorded for the handle, in
every such interleaving and whatever the response was. -/
theorem spec_cancel_no_notifs (st : SysState) (w : Worker) (req : Request)
    (callerScript : String) (i j : Nat)
    (hsome : lookupA st.requests w.handle = some req)
    (hmatch : callerScript = req.scriptName) (hi : i ≤ 2) :
    (C1run w callerScript
      (List.replicate i Ev.wk ++ Ev.cancel :: List.replicate j Ev.wk)
      st).notifs = st.notifs := by
  unfold C1run
  rw [List.foldl_append, List.foldl_cons]
  have hsnd : (List.foldl (C1step w callerScript) (0, st)
      (List.replicate i Ev.wk)).2 = st := c1_pre w callerScript st i hi
  have hdes : Destroy callerScript w.handle st =
      { st with canceledSet := w.handle :: st.canceledSet
                requests := eraseA st.requests w.handle } := by
    simp only [Destroy, hsome]
    rw [if_pos hmatch]
  have hc : C1step w callerScript
      (List.foldl (C1step w callerScript) (0, st) (List.replicate i Ev.wk))
      Ev.cancel =
      ((List.foldl (C1step w callerScript) (0, st) (List.replicate i Ev.wk)).1,
        { st with canceledSet := w.handle :: st.canceledSet
                  requests := eraseA st.requests w.handle }) := by
    show ((List.foldl (C1step w callerScript) (0, st)
        (List.replicate i Ev.wk)).1, Destroy callerScript w.handle
        (List.foldl (C1step w callerScript) (0, st)
          (List.replicate i Ev.wk)).2) = _
    rw [hsnd, hdes]
  rw [hc]
  have hfinal := c1_stuck w callerScript j
    (List.foldl (C1step w callerScript) (0, st) (List.replicate i Ev.wk)).1
    { st with canceledSet := w.handle :: st.canceledSet
              requests := eraseA st.requests w.handle }
    (inCancel_cons_self st.canceledSet w.handle)
    (lookupA_eraseA_self st.requests w.handle)
  rw [hfinal]

/-- Witness for C1: with the one-entry registry, Destroy interleaved
after the worker's first check (one step before, two steps after)
leaves the notification record empty. -/
theorem spec_cancel_no_notifs_witness :
    lookupA stOne.requests 1 = some { scriptName := "S", vmhandle := 7 } ∧
    (1 : Nat) ≤ 2 ∧
    (C1run wC5 "S" (List.replicate 1 Ev.wk ++ Ev.cancel ::
      List.replicate 2 Ev.wk) stOne).notifs = stOne.notifs :=
  ⟨rfl, by decide,
   spec_cancel_no_notifs stOne wC5 { scriptName := "S", vmhandle := 7 } "S" 1 2
     rfl rfl (by decide)⟩

theorem wstep_snd_empty (w : Worker) (pc : Nat) (st : SysState)
    (hreq : st.requests = []) : (wstep w (pc, st)).2 = st := by
  rcases pc with _ | _ | _ | pc
  · cases hf : flagOf st w.handle <;> simp [wstep, hf]
  · cases hf : flagOf st w.handle <;> simp [wstep, hf]
  · simp [wstep, deliverLocked, hreq, lookupA]
  · simp [wstep]

theorem sched_empty (ws : List Worker) (sched : List Nat) :
    ∀ p : List Nat × SysState, p.2.requests = [] →
      (List.foldl (schedStep ws) p sched).2 = p.2 := by
  induction sched with
  | nil => intro p _; rfl
  | cons a rest ih =>
      intro p h
      rw [List.foldl_cons]
      have hsnd : (schedStep ws p a).2 = p.2 := by
        unfold schedStep
        cases hw : ws.get? a with
        | none => rfl
        | some wkr =>
            cases hpc : p.1.get? a with
            | none => rfl
            | some pc => exact wstep_snd_empty wkr pc p.2 h
      rw [ih (schedStep ws p a) (by rw [hsnd, h])]
      exact hsnd

/-- Claim C2: after the reset event the registry is empty, and any
schedule of remaining steps of any pool of workers that were pending
at reset time changes nothing — no notification is recorded and no
registry mutation happens, for every number of workers and every
interleaving. -/
theorem spec_reset_no_notifs (st : SysState) (ws : List Worker)
    (pcs : List Nat) (sched : List Nat) :
    runSched ws pcs sched (ResetAll st) = ResetAll st ∧
    (ResetAll st).requests = [] ∧
    (ResetAll st).notifs = st.notifs := by
  refine ⟨?_, rfl, rfl⟩
  unfold runSched
  exact sched_empty ws sched (pcs, ResetAll st) rfl

/-! Lemmas about the registry operation machine, for the handle
uniqueness invariant (C3) and the JSON-mode invariant (C10). -/

theorem mem_eraseA_sub {κ α : Type} [DecidableEq κ] (l : List (κ × α)) (key : κ)
    (p : κ × α) (hp : p ∈ eraseA l key) : p ∈ l := by
  induction l with
  | nil => exact absurd hp (List.not_mem_nil p)
  | cons q rest ih =>
      obtain ⟨k1, v1⟩ := q
      rw [eraseA] at hp
      by_cases hk : k1 = key
      · rw [if_pos hk] at hp
        exact List.mem_cons_of_mem _ (ih hp)
      · rw [if_neg hk] at hp
        rcases List.mem_cons.mp hp with h1 | h2
        · exact h1 ▸ List.mem_cons_self _ _
        · exact List.mem_cons_of_mem _ (ih h2)

theorem lookupA_emplaceA_ne {κ α : Type} [DecidableEq κ] (l : List (κ × α))
    (k h : κ) (v : α) (hne : k ≠ h) (hnone : lookupA l h = none) :
    lookupA (emplaceA l k v) h = none := by
  unfold emplaceA
  cases hlk : lookupA l k with
  | some r => exact hnone
  | none =>
      rw [lookupA_append_single, hnone]
      simp [hne]

theorem lookupA_emplaceA_cases {κ α : Type} [DecidableEq κ] (l : List (κ × α))
    (k h : κ) (v r : α) (hr : lookupA (emplaceA l k v) h = some r) :
    lookupA l h = some r ∨ r = v := by
  unfold emplaceA at hr
  cases hlk : lookupA l k with
  | some r2 =>
      rw [hlk] at hr
      exact Or.inl hr
  | none =>
      rw [hlk] at hr
      rw [lookupA_append_single] at hr
      cases hlh : lookupA l h with
      | some r2 =>
          rw [hlh] at hr
          have h2 : some r2 = some r := hr
          exact Or.inl h2
      | none =>
          rw [hlh] at hr
          have h2 : (if k = h then some v else none) = some r := hr
          by_cases hk : k = h
          · rw [if_pos hk] at h2
            exact Or.inr (Option.some.inj h2).symm
          · rw [if_neg hk] at h2
            exact Option.noConfusion h2

theorem Destroy_lastHandle (s : String) (hd : Int) (st : SysState) :
    (Destroy s hd st).lastHandle = st.lastHandle := by
  unfold Destroy
  split
  · rfl
  · split <;> rfl

theorem deliverLocked_lastHandle (w : Worker) (st : SysState) :
    (deliverLocked w st).lastHandle = st.lastHandle := by
  unfold deliverLocked
  split
  · rfl
  · split <;> rfl

theorem deliverLocked_map_fst (w : Worker) (st : SysState) :
    (deliverLocked w st).requests.map Prod.fst = st.requests.map Prod.fst := by
  unfold deliverLocked
  split
  · rfl
  · split
    · exact map_fst_updateA _ _ _
    · rfl

theorem deliverLocked_lookup_ne (w : Worker) (st : SysState) (h : Int)
    (hne : w.handle ≠ h) :
    lookupA (deliverLocked w st).requests h = lookupA st.requests h := by
  unfold deliverLocked
  split
  · rfl
  · split
    · exact lookupA_updateA_ne _ _ _ _ hne
    · rfl

theorem Destroy_lookup_sub (s : String) (hd h : Int) (st : SysState)
    (req : Request)
    (hreq : lookupA (Destroy s hd st).requests h = some req) :
    lookupA st.requests h = some req := by
  unfold Destroy at hreq
  split at hreq
  · exact hreq
  · split at hreq
    · by_cases hh : h = hd
      · rw [hh, lookupA_eraseA_self] at hreq
        exact Option.noConfusion hreq
      · rw [lookupA_eraseA_ne _ _ _ hh] at hreq
        exact hreq
    · exact hreq

theorem Destroy_keys_sub (s : String) (hd : Int) (st : SysState) (k : Int)
    (hk : k ∈ (Destroy s hd st).requests.map Prod.fst) :
    k ∈ st.requests.map Prod.fst := by
  unfold Destroy at hk
  split at hk
  · exact hk
  · split at hk
    · obtain ⟨p, hp, hpk⟩ := List.mem_map.mp hk
      exact List.mem_map.mpr ⟨p, mem_eraseA_sub _ _ _ hp, hpk⟩
    · exact hk

theorem applyOp_lastHandle (st : SysState) (op : Op) :
    st.lastHandle ≤ (applyOp st op).1.lastHandle := by
  cases op with
  | create s v =>
      have h1 : (applyOp st (Op.create s v)).1.lastHandle = st.lastHandle + 1 :=
        rfl
      rw [h1]
      omega
  | destroy s hd => exact le_of_eq (Destroy_lastHandle s hd st).symm
  | reset => exact le_refl _
  | deliver w => exact le_of_eq (deliverLocked_lastHandle w st).symm

theorem runOps_lastHandle (ops : List Op) : ∀ st : SysState,
    st.lastHandle ≤ (runOps ops st).1.lastHandle := by
  induction ops with
  | nil => intro st; exact le_refl _
  | cons op rest ih =>
      intro st
      exact le_trans (applyOp_lastHandle st op) (ih (applyOp st op).1)

theorem runOps_append_fst (a b : List Op) : ∀ st : SysState,
    (runOps (a ++ b) st).1 = (runOps b (runOps a st).1).1 := by
  induction a with
  | nil => intro st; rfl
  | cons op rest ih => intro st; exact ih (applyOp st op).1

theorem applyOp_absent (st : SysState) (op : Op) (h : Int)
    (hnone : lookupA st.requests h = none) (hle : h ≤ st.lastHandle) :
    lookupA (applyOp st op).1.requests h = none ∧
    h ≤ (applyOp st op).1.lastHandle := by
  refine ⟨?_, le_trans hle (applyOp_lastHandle st op)⟩
  cases op with
  | create s v =>
      have hne : st.lastHandle + 1 ≠ h := by omega
      exact lookupA_emplaceA_ne st.requests (st.lastHandle + 1) h
        { scriptName := s, vmhandle := v } hne hnone
  | destroy s hd =>
      show lookupA (Destroy s hd st).requests h = none
      cases hd2 : lookupA (Destroy s hd st).requests h with
      | none => rfl
      | some req =>
          have hcontr := Destroy_lookup_sub s hd h st req hd2
          rw [hnone] at hcontr
          exact Option.noConfusion hcontr
  | reset => rfl
  | deliver w =>
      show lookupA (deliverLocked w st).requests h = none
      cases hd2 : lookupA (deliverLocked w st).requests h with
      | none => rfl
      | some req =>
          have hsome2 : (lookupA (deliverLocked w st).requests h).isSome =
              (lookupA st.requests h).isSome := by
            unfold deliverLocked
            split
            · rfl
            · split
              · exact isSome_lookupA_updateA _ _ _ _
              · rfl
          rw [hd2, hnone] at hsome2
          exact Bool.noConfusion hsome2

theorem runOps_absent (ops : List Op) : ∀ (st : SysState) (h : Int),
    lookupA st.requests h = none → h ≤ st.lastHandle →
    lookupA (runOps ops st).1.requests h = none := by
  induction ops with
  | nil => intro st h hnone _; exact hnone
  | cons op rest ih =>
      intro st h hnone hle
      obtain ⟨h1, h2⟩ := applyOp_absent st op h hnone hle
      exact ih (applyOp st op).1 h h1 h2

theorem runOps_outputs (ops : List Op) : ∀ st : SysState,
    (∀ h ∈ (runOps ops st).2,
      st.lastHandle < h ∧ h ≤ (runOps ops st).1.lastHandle) ∧
    (runOps ops st).2.Pairwise (· < ·) := by
  induction ops with
  | nil =>
      intro st
      exact ⟨fun h hmem => absurd hmem (List.not_mem_nil h), List.Pairwise.nil⟩
  | cons op rest ih =>
      intro st
      cases op with
      | create s v =>
          obtain ⟨ihb, ihp⟩ := ih (applyOp st (Op.create s v)).1
          have hlh1 : (applyOp st (Op.create s v)).1.lastHandle =
              st.lastHandle + 1 := rfl
          have houts : (runOps (Op.create s v :: rest) st).2 =
              (st.lastHandle + 1) ::
                (runOps rest (applyOp st (Op.create s v)).1).2 := rfl
          rw [houts]
          constructor
          · intro h hmem
            rcases List.mem_cons.mp hmem with hh | hh
            · subst hh
              refine ⟨by omega, ?_⟩
              have hmono := runOps_lastHandle rest (applyOp st (Op.create s v)).1
              rw [hlh1] at hmono
              exact hmono
            · obtain ⟨hb1, hb2⟩ := ihb h hh
              rw [hlh1] at hb1
              exact ⟨by omega, hb2⟩
          · refine List.Pairwise.cons (fun b hb => ?_) ihp
            obtain ⟨hb1, _⟩ := ihb b hb
            rw [hlh1] at hb1
            omega
      | destroy s hd =>
          obtain ⟨ihb, ihp⟩ := ih (applyOp st (Op.destroy s hd)).1
          have hlh : (applyOp st (Op.destroy s hd)).1.lastHandle =
              st.lastHandle := Destroy_lastHandle s hd st
          refine ⟨fun h hmem => ?_, ihp⟩
          obtain ⟨hb1, hb2⟩ := ihb h hmem
          rw [hlh] at hb1
          exact ⟨hb1, hb2⟩
      | reset =>
          obtain ⟨ihb, ihp⟩ := ih (applyOp st Op.reset).1
          exact ⟨fun h hmem => ihb h hmem, ihp⟩
      | deliver w =>
          obtain ⟨ihb, ihp⟩ := ih (applyOp st (Op.deliver w)).1
          have hlh : (applyOp st (Op.deliver w)).1.lastHandle =
              st.lastHandle := deliverLocked_lastHandle w st
          refine ⟨fun h hmem => ?_, ihp⟩
          obtain ⟨hb1, hb2⟩ := ihb h hmem
          rw [hlh] at hb1
          exact ⟨hb1, hb2⟩

/-- The registry key invariant: every registered handle is positive
and bounded by the handle counter. -/
def boundedReg (st : SysState) : Prop :=
  ∀ k ∈ st.requests.map Prod.fst, 0 < k ∧ k ≤ st.lastHandle

theorem applyOp_bounded (st : SysState) (op : Op) (hb : boundedReg st)
    (h0 : 0 ≤ st.lastHandle) :
    boundedReg (applyOp st op).1 ∧ 0 ≤ (applyOp st op).1.lastHandle := by
  cases op with
  | create s v =>
      constructor
      · intro k hk
        have hlh1 : (applyOp st (Op.create s v)).1.lastHandle =
            st.lastHandle + 1 := rfl
        rw [hlh1]
        have hk2 : k ∈ (emplaceA st.requests (st.lastHandle + 1)
            { scriptName := s, vmhandle := v } : List (Int × Request)).map
            Prod.fst := hk
        unfold emplaceA at hk2
        cases hlk : lookupA st.requests (st.lastHandle + 1) with
        | some r =>
            rw [hlk] at hk2
            obtain ⟨h1, h2⟩ := hb k hk2
            exact ⟨h1, by omega⟩
        | none =>
            rw [hlk] at hk2
            rw [List.map_append] at hk2
            rcases List.mem_append.mp hk2 with hold | hnew
            · obtain ⟨h1, h2⟩ := hb k hold
              exact ⟨h1, by omega⟩
            · have hkk : k = st.lastHandle + 1 := by simpa using hnew
              constructor <;> omega
      · show 0 ≤ st.lastHandle + 1
        omega
  | destroy s hd =>
      refine ⟨fun k hk => ?_, le_trans h0 (applyOp_lastHandle st (Op.destroy s hd))⟩
      rw [show (applyOp st (Op.destroy s hd)).1.lastHandle = st.lastHandle from
        Destroy_lastHandle s hd st]
      exact hb k (Destroy_keys_sub s hd st k hk)
  | reset =>
      refine ⟨fun k hk => ?_, h0⟩
      have hk2 : k ∈ ([] : List (Int × Request)).map Prod.fst := hk
      simp at hk2
  | deliver w =>
      refine ⟨fun k hk => ?_, le_trans h0 (applyOp_lastHandle st (Op.deliver w))⟩
      rw [show (applyOp st (Op.deliver w)).1.lastHandle = st.lastHandle from
        deliverLocked_lastHandle w st]
      have hk2 : k ∈ (deliverLocked w st).requests.map Prod.fst := hk
      rw [deliverLocked_map_fst] at hk2
      exact hb k hk2

theorem runOps_bounded (ops : List Op) : ∀ st : SysState, boundedReg st →
    0 ≤ st.lastHandle →
    boundedReg (runOps ops st).1 ∧ 0 ≤ (runOps ops st).1.lastHandle := by
  induction ops with
  | nil => intro st hb h0; exact ⟨hb, h0⟩
  | cons op rest ih =>
      intro st hb h0
      obtain ⟨h1, h2⟩ := applyOp_bounded st op hb h0
      exact ih (applyOp st op).1 h1 h2

/-- Claim C3: over every sequence of registry operations starting from
the initial state, the handles returned by the creates are strictly
increasing and positive (hence never repeated), every registered handle
is positive and bounded by the counter, and a handle absent from the
registry but within the counter's range (in particular, any erased
handle) never matches a Lookup after any further operations. -/
theorem spec_handles_monotone :
    (∀ ops : List Op,
      (runOps ops st0).2.Pairwise (· < ·) ∧
      (∀ h ∈ (runOps ops st0).2, 0 < h) ∧
      boundedReg (runOps ops st0).1) ∧
    (∀ (ops1 ops2 : List Op) (h : Int),
      lookupA (runOps ops1 st0).1.requests h = none →
      h ≤ (runOps ops1 st0).1.lastHandle →
      lookupA (runOps (ops1 ++ ops2) st0).1.requests h = none) := by
  constructor
  · intro ops
    obtain ⟨hb, hp⟩ := runOps_outputs ops st0
    refine ⟨hp, fun h hmem => (hb h hmem).1, ?_⟩
    exact (runOps_bounded ops st0
      (fun k hk => absurd hk (List.not_mem_nil k)) (le_refl 0)).1
  · intro ops1 ops2 h hnone hle
    rw [runOps_append_fst ops1 ops2 st0]
    exact runOps_absent ops2 (runOps ops1 st0).1 h hnone hle

/-- Witness for C3: the handle created and then destroyed is absent,
within the counter's range, and still unmatched after a further
create. -/
theorem spec_handles_monotone_witness :
    lookupA (runOps [Op.create "S" 7, Op.destroy "S" 1] st0).1.requests 1 =
      none ∧
    (1 : Int) ≤ (runOps [Op.create "S" 7, Op.destroy "S" 1] st0).1.lastHandle ∧
    lookupA (runOps ([Op.create "S" 7, Op.destroy "S" 1] ++
      [Op.create "T" 8]) st0).1.requests 1 = none :=
  ⟨rfl, by decide,
   spec_handles_monotone.2 [Op.create "S" 7, Op.destroy "S" 1]
     [Op.create "T" 8] 1 rfl (by decide)⟩

/-! The JSON-mode invariant (C10): a handle whose deliveries all have
JSON mode off keeps the default-constructed null document and a false
jsonValidated flag throughout its lifecycle. -/

/-- The entry for a handle, if present, is unvalidated and holds the
default-constructed null document. -/
def cleanEntry (st : SysState) (h : Int) : Prop :=
  ∀ req : Request, lookupA st.requests h = some req →
    req.jsonValidated = false ∧ req.json = JSONVal.null

theorem resolvePointer_null (path : String) (v : JSONVal)
    (hv : resolvePointer JSONVal.null path = some v) : v = JSONVal.null := by
  unfold resolvePointer at hv
  cases hd : path.data with
  | nil =>
      simp only [hd] at hv
      exact (Option.some.inj hv).symm
  | cons c rest =>
      simp only [hd] at hv
      by_cases hc : c = '/'
      · rw [if_pos hc] at hv
        cases hu : unescapeSegs (splitSegs rest) with
        | none =>
            simp only [hu] at hv
            exact Option.noConfusion hv
        | some toks =>
            simp only [hu] at hv
            cases toks with
            | nil => exact (Option.some.inj hv).symm
            | cons t ts => exact Option.noConfusion hv
      · rw [if_neg hc] at hv
        exact Option.noConfusion hv

theorem ValidateJSON_clean (st : SysState) (h : Int) (hc : cleanEntry st h) :
    ValidateJSON st h = false := by
  unfold ValidateJSON
  cases hl : lookupA st.requests h with
  | none => rfl
  | some req => exact (hc req hl).1

theorem GetJSONValue_clean {T : Type} (conv : JSONVal → Option T)
    (st : SysState) (h : Int) (path : String) (d : T)
    (hc : cleanEntry st h) (hnull : conv JSONVal.null = none) :
    GetJSONValue conv st h path d = d := by
  unfold GetJSONValue
  cases hl : lookupA st.requests h with
  | none => rfl
  | some req =>
      obtain ⟨_, hjson⟩ := hc req hl
      show (match resolvePointer req.json path with
        | none => d
        | some v => (conv v).getD d) = d
      rw [hjson]
      cases hr : resolvePointer JSONVal.null path with
      | none => rfl
      | some v =>
          rw [show v = JSONVal.null from resolvePointer_null path v hr]
          show (conv JSONVal.null).getD d = d
          rw [hnull]
          rfl

theorem applyOp_clean (st : SysState) (op : Op) (h : Int)
    (hc : cleanEntry st h)
    (hop : ∀ w : Worker, op = Op.deliver w → w.handle = h →
      w.isJSON = false) :
    cleanEntry (applyOp st op).1 h := by
  cases op with
  | create s v =>
      intro req hreq
      have hreq2 : lookupA (emplaceA st.requests (st.lastHandle + 1)
          { scriptName := s, vmhandle := v }) h = some req := hreq
      rcases lookupA_emplaceA_cases _ _ _ _ _ hreq2 with hold | hnew
      · exact hc req hold
      · rw [hnew]
        exact ⟨rfl, rfl⟩
  | destroy s hd =>
      intro req hreq
      exact hc req (Destroy_lookup_sub s hd h st req hreq)
  | reset =>
      intro req hreq
      have hreq2 : lookupA ([] : List (Int × Request)) h = some req := hreq
      exact Option.noConfusion hreq2
  | deliver w =>
      intro req hreq
      have hreq2 : lookupA (deliverLocked w st).requests h = some req := hreq
      by_cases hwh : w.handle = h
      · cases heq : lookupA st.requests w.handle with
        | none =>
            have hd2 : deliverLocked w st = st := by
              simp only [deliverLocked, heq]
            rw [hd2] at hreq2
            exact hc req hreq2
        | some req1 =>
            by_cases hs : w.status = 200
            · have hjf : w.isJSON = false := hop w rfl hwh
              have hd2 : deliverLocked w st =
                  { st with
                      requests := updateA st.requests w.handle req1
                      notifs := st.notifs ++ [Notif.success req1.vmhandle
                        req1.scriptName w.handle w.text] } := by
                simp only [deliverLocked, heq]
                rw [if_pos hs, hjf]
                rfl
              rw [hd2] at hreq2
              rw [hwh] at hreq2 heq
              rw [lookupA_updateA_self st.requests h req1 req1 heq] at hreq2
              rw [show req1 = req from Option.some.inj hreq2] at heq
              exact hc req heq
            · have hd2 : deliverLocked w st =
                  { st with notifs := st.notifs ++ [Notif.fail req1.vmhandle
                      req1.scriptName w.handle w.status] } := by
                simp only [deliverLocked, heq]
                rw [if_neg hs]
              rw [hd2] at hreq2
              exact hc req hreq2
      · rw [deliverLocked_lookup_ne w st h hwh] at hreq2
        exact hc req hreq2

theorem runOps_clean (ops : List Op) : ∀ (st : SysState) (h : Int),
    cleanEntry st h →
    (∀ w : Worker, Op.deliver w ∈ ops → w.handle = h → w.isJSON = false) →
    cleanEntry (runOps ops st).1 h := by
  induction ops with
  | nil => intro st h hc _; exact hc
  | cons op rest ih =>
      intro st h hc hops
      exact ih (applyOp st op).1 h
        (applyOp_clean st op h hc
          (fun w hw => hops w (hw ▸ List.mem_cons_self op rest)))
        (fun w hm hh => hops w (List.mem_cons_of_mem op hm) hh)

/-- Claim C10: LoadURL spawns its worker with JSON mode off, and for
every trace whose deliveries to a given handle all have JSON mode off,
at every prefix of the trace ValidateJSON is false for that handle and
every typed accessor returns the caller-supplied default at every path. -/
theorem spec_loadurl_json_false :
    (∀ (s : String) (v : Int) (url : String) (t : Int)
        (ks vs : List String)
        (net : IssuedRequest → Int × String × Option JSONVal) (st : SysState),
      (LoadURL s v url t ks vs net st).worker.isJSON = false) ∧
    (∀ (ops1 ops2 : List Op) (h : Int),
      (∀ w : Worker, Op.deliver w ∈ ops1 ++ ops2 → w.handle = h →
        w.isJSON = false) →
      ValidateJSON (runOps ops1 st0).1 h = false ∧
      (∀ path : String,
        (∀ d : String, GetJSONString (runOps ops1 st0).1 h path d = d) ∧
        (∀ d : Int, GetJSONInt (runOps ops1 st0).1 h path d = d) ∧
        (∀ d : Rat, GetJSONFloat (runOps ops1 st0).1 h path d = d) ∧
        (∀ d : Bool, GetJSONBool (runOps ops1 st0).1 h path d = d))) := by
  constructor
  · intro s v url t ks vs net st
    rfl
  · intro ops1 ops2 h hops
    have hclean : cleanEntry (runOps ops1 st0).1 h :=
      runOps_clean ops1 st0 h
        (fun req hreq => Option.noConfusion hreq)
        (fun w hm hh => hops w (List.mem_append_left ops2 hm) hh)
    refine ⟨ValidateJSON_clean _ _ hclean, fun path => ⟨?_, ?_, ?_, ?_⟩⟩
    · exact fun d => GetJSONValue_clean asString _ h path d hclean rfl
    · exact fun d => GetJSONValue_clean asInt _ h path d hclean rfl
    · exact fun d => GetJSONValue_clean asFloat _ h path d hclean rfl
    · exact fun d => GetJSONValue_clean asBool _ h path d hclean rfl

/-- Witness for C10: a request created and delivered with JSON mode
off (status 200) still validates false, and the int accessor returns
its default. -/
theorem spec_loadurl_json_false_witness :
    (LoadURL "S" 7 "u" 5000 [] [] netNone st0).worker.isJSON = false ∧
    ValidateJSON (runOps [Op.create "S" 7, Op.deliver wC5] st0).1 1 = false ∧
    GetJSONInt (runOps [Op.create "S" 7, Op.deliver wC5] st0).1 1 "/a/b" 5 =
      5 :=
  ⟨spec_loadurl_json_false.1 "S" 7 "u" 5000 [] [] netNone st0,
   (spec_loadurl_json_false.2 [Op.create "S" 7, Op.deliver wC5] [] 1
     (fun w hw _ => by
       rcases List.mem_cons.mp hw with h1 | h2
       · exact Op.noConfusion h1
       · rcases List.mem_cons.mp h2 with h3 | h4
         · rw [Op.deliver.inj h3]; rfl
         · exact absurd h4 (List.not_mem_nil _))).1,
   ((spec_loadurl_json_false.2 [Op.create "S" 7, Op.deliver wC5] [] 1
     (fun w hw _ => by
       rcases List.mem_cons.mp hw with h1 | h2
       · exact Op.noConfusion h1
       · rcases List.mem_cons.mp h2 with h3 | h4
         · rw [Op.deliver.inj h3]; rfl
         · exact absurd h4 (List.not_mem_nil _))).2 "/a/b").2.1 5⟩

end PapyrusHTTP
